import Mathlib

/-!
Shallow embedding of `epyt_flow/visualization/visualization_utils.py`:
the visualization frame-data engine (`JunctionObject`, `EdgeObject`).

Numeric values are modelled as exact rationals (`ℚ`); fallible Python
operations return `Except PyErr`; methods that mutate `self` are modelled
as functions returning the updated object together with an optional error
(the object state survives a raised exception, as it does in Python).
-/

/-- Python exception outcomes relevant to the embedded code.
`degenerateRange` is the error the spec recommends for a zero-width rescale
source range; the source never produces it.  `zeroDivisionError` is what
plain-Python division by zero would raise; the width data path modelled
here carries numpy scalars, whose zero division warns and yields nan or an
infinity instead, so the embedded code never produces it either. -/
inductive PyErr where
  | valueError (msg : String)
  | typeError
  | attributeError
  | indexError
  | zeroDivisionError
  | degenerateRange
deriving DecidableEq, Repr

/-- Decidable equality for `Except` results, so concrete runs of the
embedded code can be checked by `decide`. -/
instance exceptDecEq {ε α : Type} [DecidableEq ε] [DecidableEq α] :
    DecidableEq (Except ε α)
  | .ok a, .ok b =>
    match decEq a b with
    | isTrue h => isTrue (h ▸ rfl)
    | isFalse h => isFalse (fun hh => h (Except.ok.inj hh))
  | .error a, .error b =>
    match decEq a b with
    | isTrue h => isTrue (h ▸ rfl)
    | isFalse h => isFalse (fun hh => h (Except.error.inj hh))
  | .ok _, .error _ => isFalse (fun hh => Except.noConfusion hh)
  | .error _, .ok _ => isFalse (fun hh => Except.noConfusion hh)

/-- Message of the `ValueError` raised for an unknown statistic name. -/
def statMsg : String := "Statistic parameter must be mean, min, max or time_step"

/-- Message of the `ValueError` raised when `pit` is missing for `time_step`. -/
def pitMsg : String :=
  "Please input point in time (pit) parameter when selecting time_step statistic"

/-- Message of the `ValueError` raised for an unknown intervals type. -/
def intervalsMsg : String :=
  "Intervals must be either number of groups or list of interval boundary points"

/-- Message of the `ValueError` raised for an unknown link data parameter. -/
def paramMsg : String :=
  "Parameter must be flow_rate, link_quality, diameter or custom_data."

/-- Message of the `ValueError` raised by `min`/`max` of an empty sequence
(also stands for the numpy zero-size reduction error). -/
def emptySeqMsg : String := "min or max arg is an empty sequence"

/-- Python `min(xs)` over one iterable argument: `ValueError` on empty input. -/
def pyMinList {α : Type} [Min α] (l : List α) : Except PyErr α :=
  match l with
  | [] => .error (.valueError emptySeqMsg)
  | x :: xs => .ok (xs.foldl Min.min x)

/-- Python `max(xs)` over one iterable argument: `ValueError` on empty input. -/
def pyMaxList {α : Type} [Max α] (l : List α) : Except PyErr α :=
  match l with
  | [] => .error (.valueError emptySeqMsg)
  | x :: xs => .ok (xs.foldl Max.max x)

/-- Python `min(*args)` with the arguments spread: `TypeError` when fewer than
two arguments are supplied (a single non-iterable argument). -/
def pyMinMulti {α : Type} [Min α] (l : List α) : Except PyErr α :=
  match l with
  | [] => .error .typeError
  | [_] => .error .typeError
  | x :: xs => .ok (xs.foldl Min.min x)

/-- Python `max(*args)` with the arguments spread: `TypeError` when fewer than
two arguments are supplied. -/
def pyMaxMulti {α : Type} [Max α] (l : List α) : Except PyErr α :=
  match l with
  | [] => .error .typeError
  | [_] => .error .typeError
  | x :: xs => .ok (xs.foldl Max.max x)

/-- Python list indexing `l[i]` with negative-index wrap-around and
`IndexError` outside `-len l ≤ i < len l`.  Also models `np.take(l, i, axis=0)`. -/
def pyIndex {α : Type} (l : List α) (i : ℤ) : Except PyErr α :=
  let j : ℤ := if i < 0 then i + l.length else i
  if j < 0 then .error .indexError
  else
    match l[j.toNat]? with
    | some a => .ok a
    | none => .error .indexError

/-- Extended rationals modelling Python floats together with the infinite
sentinels that `EdgeObject.add_frame` assigns to `edge_vmin` / `edge_vmax`
when it initializes the color track. -/
inductive XQ where
  | ninf
  | fin (q : ℚ)
  | inf
deriving DecidableEq, Repr

/-- Comparison on extended rationals. -/
def XQ.ble : XQ → XQ → Bool
  | .ninf, _ => true
  | .fin _, .ninf => false
  | .fin a, .fin b => decide (a ≤ b)
  | .fin _, .inf => true
  | .inf, .inf => true
  | .inf, _ => false

instance : Min XQ := ⟨fun a b => if XQ.ble a b then a else b⟩

instance : Max XQ := ⟨fun a b => if XQ.ble a b then b else a⟩

/-- Numpy float scalars as stored in the width track: `add_frame` appends
`list(stat_values)` (source line 348), whose elements are numpy scalars.
Their arithmetic never raises on division by zero: numpy emits a
RuntimeWarning and produces a signed infinity or nan.  (Width frames
appended by the `diameter` branch would instead hold plain Python floats,
whose division by zero raises; this embedding represents the numpy-scalar
values of the statistic pipeline.) -/
inductive NpVal where
  | fin (q : ℚ)
  | inf
  | ninf
  | nan
deriving DecidableEq, Repr

/-- IEEE-style strict comparison on numpy scalars: nan compares false
against everything. -/
def NpVal.lt : NpVal → NpVal → Bool
  | .nan, _ => false
  | _, .nan => false
  | .ninf, .ninf => false
  | .ninf, _ => true
  | _, .ninf => false
  | .fin a, .fin b => decide (a < b)
  | .fin _, .inf => true
  | .inf, _ => false

/-- Python `min` keeps the accumulator unless the new element compares
strictly below it. -/
instance : Min NpVal := ⟨fun a b => if NpVal.lt b a then b else a⟩

/-- Python `max` replaces the accumulator when the new element compares
strictly above it. -/
instance : Max NpVal := ⟨fun a b => if NpVal.lt a b then b else a⟩

/-- IEEE subtraction on numpy scalars. -/
def NpVal.sub : NpVal → NpVal → NpVal
  | .nan, _ => .nan
  | _, .nan => .nan
  | .inf, .inf => .nan
  | .ninf, .ninf => .nan
  | .inf, _ => .inf
  | .ninf, _ => .ninf
  | .fin _, .inf => .ninf
  | .fin _, .ninf => .inf
  | .fin a, .fin b => .fin (a - b)

/-- IEEE division on numpy scalars: a nonzero value divided by zero gives a
signed infinity, zero by zero gives nan; numpy warns but never raises. -/
def NpVal.div : NpVal → NpVal → NpVal
  | .nan, _ => .nan
  | _, .nan => .nan
  | .inf, .inf => .nan
  | .inf, .ninf => .nan
  | .ninf, .inf => .nan
  | .ninf, .ninf => .nan
  | .inf, .fin b => if b < 0 then .ninf else .inf
  | .ninf, .fin b => if b < 0 then .inf else .ninf
  | .fin _, .inf => .fin 0
  | .fin _, .ninf => .fin 0
  | .fin a, .fin b =>
    if b = 0 then (if a = 0 then .nan else if a < 0 then .ninf else .inf)
    else .fin (a / b)

/-- Multiplication of a numpy scalar by a plain Python number. -/
def NpVal.mulQ : NpVal → ℚ → NpVal
  | .nan, _ => .nan
  | .inf, s => if s = 0 then .nan else if s < 0 then .ninf else .inf
  | .ninf, s => if s = 0 then .nan else if s < 0 then .inf else .ninf
  | .fin a, s => .fin (a * s)

/-- Addition of a plain Python number and a numpy scalar. -/
def NpVal.addQ : ℚ → NpVal → NpVal
  | _, .nan => .nan
  | _, .inf => .inf
  | _, .ninf => .ninf
  | c, .fin a => .fin (c + a)

/-- Returns true on a finite numpy scalar. -/
def NpVal.isFin : NpVal → Bool
  | .fin _ => true
  | _ => false

/-- The rational carried by a finite numpy scalar (zero otherwise). -/
def NpVal.toQ : NpVal → ℚ
  | .fin a => a
  | _ => 0

/-- Model of `np.linspace lo hi n`: `n` evenly spaced points from `lo` to `hi`
inclusive (exact arithmetic; numpy also pins the final point to `hi`). -/
def npLinspace (lo hi : ℚ) (n : ℕ) : List ℚ :=
  if n = 0 then []
  else if n = 1 then [lo]
  else (List.range n).map (fun i : ℕ => lo + (hi - lo) * (i : ℚ) / ((n : ℚ) - 1))

/-- Model of `np.digitize x bins` for monotonically increasing `bins` (default
`right=False`): the number of bin edges `≤ x`, i.e. `searchsorted` on the
right side. -/
def npDigitize (x : ℚ) (bins : List ℚ) : ℤ :=
  (bins.countP (fun b => decide (b ≤ x)) : ℤ)

/-- Model of `np.mean(values, axis=0)`: column-wise arithmetic mean of a rectangular
time-major array.  (On an empty time axis numpy would produce NaNs; here the
empty list is returned, a corner no embedded caller reaches.) -/
def npMean (values : List (List ℚ)) : List ℚ :=
  match values with
  | [] => []
  | v :: vs =>
    (vs.foldl (fun acc row => List.zipWith (· + ·) acc row) v).map
      (fun s => s / (values.length : ℚ))

/-- Model of `np.min(values, axis=0)`: column-wise minimum; `ValueError` on an empty
time axis (numpy zero-size reduction). -/
def npMin (values : List (List ℚ)) : Except PyErr (List ℚ) :=
  match values with
  | [] => .error (.valueError emptySeqMsg)
  | v :: vs => .ok (vs.foldl (fun acc row => List.zipWith Min.min acc row) v)

/-- Model of `np.max(values, axis=0)`: column-wise maximum; `ValueError` on an empty
time axis. -/
def npMax (values : List (List ℚ)) : Except PyErr (List ℚ) :=
  match values with
  | [] => .error (.valueError emptySeqMsg)
  | v :: vs => .ok (vs.foldl (fun acc row => List.zipWith Max.max acc row) v)

/-- The `statistic` argument of `add_frame`; `other` covers any string not in
`stat_funcs` and not equal to the string for the time-step statistic. -/
inductive Statistic where
  | mean
  | min
  | max
  | time_step
  | other (s : String)
deriving DecidableEq, Repr

/-- The `intervals` argument of `add_frame` when not `None`: an integer bin
count, an explicit boundary list, or a value of any other type. -/
inductive Intervals where
  | num (k : ℕ)
  | list (bs : List ℚ)
  | other
deriving DecidableEq, Repr

/-- Statistic reduction shared by `JunctionObject.add_frame` (source lines
82-92) and `EdgeObject.add_frame` (source lines 323-333): reduce along the
time axis, or select the row at `pit` (a missing `pit` raises; `pit == 0`
passes the falsiness guard because of the `pit != 0` conjunct). -/
def statReduce (statistic : Statistic) (values : List (List ℚ))
    (pit : Option ℤ) : Except PyErr (List ℚ) :=
  match statistic with
  | .mean => .ok (npMean values)
  | .min => npMin values
  | .max => npMax values
  | .time_step =>
    match pit with
    | none => .error (.valueError pitMsg)
    | some p => pyIndex values p
  | .other _ => .error (.valueError statMsg)

/-- Discretization shared by both `add_frame` variants (source lines 94-105
and 335-346): `None` passes through, an integer `k` bins into `k` equal-width
intervals between the observed min and max via digitize-minus-one, a boundary
list digitizes against the given boundaries, anything else raises. -/
def discretize (stat_values : List ℚ) (intervals : Option Intervals) :
    Except PyErr (List ℚ) :=
  match intervals with
  | none => .ok stat_values
  | some (.num k) =>
    match pyMinList stat_values with
    | .error e => .error e
    | .ok m =>
      match pyMaxList stat_values with
      | .error e => .error e
      | .ok M =>
        let interv := npLinspace m M (k + 1)
        .ok (stat_values.map (fun x => ((npDigitize x interv - 1 : ℤ) : ℚ)))
  | some (.list bs) =>
    .ok (stat_values.map (fun x => ((npDigitize x bs - 1 : ℤ) : ℚ)))
  | some .other => .error (.valueError intervalsMsg)

/-- Error-propagating map over a list, modelling a Python loop or generator
that raises at the first failing element. -/
def exceptMapList {α β : Type} (f : α → Except PyErr β) :
    List α → Except PyErr (List β)
  | [] => .ok []
  | x :: xs =>
    match f x with
    | .error e => .error e
    | .ok y =>
      match exceptMapList f xs with
      | .error e => .error e
      | .ok ys => .ok (y :: ys)

/-- The dual-typed color attribute: a plain string (uninitialized) or the
list of per-frame value vectors (colored). -/
inductive ColorAttr where
  | str (c : String)
  | frames (fs : List (List ℚ))
deriving DecidableEq, Repr

/-- State of `JunctionObject` from the source: static draw attributes plus the mutable
frame-sequence state.  `vmin` / `vmax` / `node_color_inter` are `Option`
because the Python attributes do not exist until first assigned
(`node_shape`, always `None` here, is omitted). -/
structure JunctionObject where
  nodelist : List String
  pos : List (String × ℚ × ℚ)
  node_size : ℤ := 10
  node_color : ColorAttr := .str "k"
  vmin : Option ℚ := none
  vmax : Option ℚ := none
  node_color_inter : Option (List (List ℚ)) := none
  interpolated : Bool := false
deriving DecidableEq, Repr

/-- A `JunctionObject` as freshly constructed: shared color, no extrema, no
interpolation. -/
def freshJunction (nl : List String) : JunctionObject :=
  { nodelist := nl, pos := [] }

/-- Source lines 115-117: append the new value vector and update the running
extrema.  Line 116 assigns `vmin` first; line 117 of the source then computes
the new `vmax` as the maximum of the new values and `self.vmin` (it reads
`vmin`, not `vmax`), which this definition mirrors exactly. -/
def junctionAppend (o : JunctionObject) (sorted_values : List ℚ) :
    JunctionObject × Option PyErr :=
  match o.node_color with
  | .str _ => (o, some .attributeError)
  | .frames fs =>
    let o1 := { o with node_color := .frames (fs ++ [sorted_values]) }
    match o1.vmin with
    | none => (o1, some .attributeError)
    | some v0 =>
      match pyMinMulti (sorted_values ++ [v0]) with
      | .error e => (o1, some e)
      | .ok m =>
        let o2 := { o1 with vmin := some m }
        match pyMaxMulti (sorted_values ++ [m]) with
        | .error e => (o2, some e)
        | .ok M => ({ o2 with vmax := some M }, none)

/-- Source lines 109-117: on the first colored `add_frame` the color track is
initialized (`node_color` becomes the empty list, `vmin` / `vmax` the extremes
of the incoming vector), then the vector is appended and the running extrema
updated. -/
def junctionStore (o : JunctionObject) (sorted_values : List ℚ) :
    JunctionObject × Option PyErr :=
  match o.node_color with
  | .str _ =>
    let o1 := { o with node_color := .frames [] }
    match pyMinList sorted_values with
    | .error e => (o1, some e)
    | .ok m =>
      let o2 := { o1 with vmin := some m }
      match pyMaxList sorted_values with
      | .error e => (o2, some e)
      | .ok M => junctionAppend { o2 with vmax := some M } sorted_values
  | .frames _ => junctionAppend o sorted_values

/-- Model of `JunctionObject.add_frame` (source lines 57-117): reduce by the statistic,
optionally discretize, reorder by `zip` with `nodelist` (which truncates to
the shorter of the two), then store. -/
def JunctionObject.addFrame (o : JunctionObject) (statistic : Statistic)
    (values : List (List ℚ)) (pit : Option ℤ) (intervals : Option Intervals) :
    JunctionObject × Option PyErr :=
  match statReduce statistic values pit with
  | .error e => (o, some e)
  | .ok sv =>
    match discretize sv intervals with
    | .error e => (o, some e)
    | .ok stat_values =>
      junctionStore o ((o.nodelist.zip stat_values).map Prod.snd)

/-- The attribute mapping `JunctionObject.get_frame` hands to the renderer
(restricted to the keys `draw_networkx_nodes` accepts and non-`None` values). -/
structure NodeFrameAttrs where
  nodelist : List String
  pos : List (String × ℚ × ℚ)
  node_size : ℤ
  node_color : Sum String (List ℚ)
deriving DecidableEq, Repr

/-- Builds the output mapping of `JunctionObject.get_frame` from the static
attributes and the selected color value. -/
def mkNodeAttrs (o : JunctionObject) (c : Sum String (List ℚ)) :
    NodeFrameAttrs :=
  { nodelist := o.nodelist, pos := o.pos, node_size := o.node_size,
    node_color := c }

/-- The frame-number clamp used by both `get_frame` methods (source lines
141-147, 378-395): indices strictly greater than the sequence length are
replaced by `-1`; the length itself passes through unchanged. -/
def clampFn (len : ℕ) (frame_number : ℤ) : ℤ :=
  if (len : ℤ) < frame_number then -1 else frame_number

/-- Model of `JunctionObject.get_frame` (source lines 119-157): select the color for
the requested frame (from the interpolated sequence when `interpolated` is
set, the raw sequence otherwise, or the shared color string when
uninitialized) and return the renderer attribute mapping. -/
def JunctionObject.getFrame (o : JunctionObject) (frame_number : ℤ) :
    Except PyErr NodeFrameAttrs :=
  match o.node_color with
  | .str c => .ok (mkNodeAttrs o (.inl c))
  | .frames fs =>
    if o.interpolated then
      match o.node_color_inter with
      | none => .error .attributeError
      | some nfs =>
        (pyIndex nfs (clampFn nfs.length frame_number)).map
          (fun v => mkNodeAttrs o (.inr v))
    else
      (pyIndex fs (clampFn fs.length frame_number)).map
        (fun v => mkNodeAttrs o (.inr v))

/-- Entity count of a frame sequence: the length of the first row (the shape
of the numpy array for a rectangular sequence). -/
def numCols {α : Type} (frames : List (List α)) : ℕ := (frames.headD []).length

/-- Column `j` of a time-major frame sequence. -/
def column (frames : List (List ℚ)) (j : ℕ) : List ℚ :=
  frames.map (fun row => row.getD j 0)

/-- Core of both `interpolate` methods (source lines 171-181 and 424-434):
treat the existing frames as samples at integer points `0 .. steps-1`, fit
one spline per entity through them, and resample at `num_inter_frames` evenly
spaced points over the same range.  `cubicSpline ys x` stands for the scipy
`CubicSpline` collaborator evaluated at `x` for the spline through the points
`(i, ys i)`. -/
def interpolateFrames (cubicSpline : List ℚ → ℚ → ℚ)
    (frames : List (List ℚ)) (num_inter_frames : ℕ) : List (List ℚ) :=
  let steps := frames.length
  let new_x_axis := npLinspace 0 ((steps : ℚ) - 1) num_inter_frames
  new_x_axis.map
    (fun x => (List.range (numCols frames)).map
      (fun j => cubicSpline (column frames j) x))

/-- Model of `JunctionObject.interpolate` (source lines 159-183): no-op when the color
track is uninitialized or has at most one frame, otherwise store the densified
sequence in `node_color_inter` and set the `interpolated` flag. -/
def JunctionObject.interpolate (cubicSpline : List ℚ → ℚ → ℚ)
    (o : JunctionObject) (num_inter_frames : ℕ) : JunctionObject :=
  match o.node_color with
  | .str _ => o
  | .frames fs =>
    if fs.length ≤ 1 then o
    else
      { o with
        node_color_inter := some (interpolateFrames cubicSpline fs num_inter_frames),
        interpolated := true }

/-- The piecewise-linear interpolant through the points `(i, ys i)`: the
concrete spline instance used at two sample points, where scipy cubic-spline
interpolation degenerates to the straight line through the two points. -/
def plSpline (ys : List ℚ) (x : ℚ) : ℚ :=
  let n : ℤ := ys.length
  let f : ℤ := Rat.floor x
  let i0 : ℤ := if f ≤ n - 2 then f else n - 2
  let i : ℤ := if 0 ≤ i0 then i0 else 0
  let y0 := ys.getD i.toNat 0
  let y1 := ys.getD (i.toNat + 1) 0
  y0 + (y1 - y0) * (x - i)

/-- The `edge_param` argument of `EdgeObject.add_frame`, selecting the width
or the color track. -/
inductive EdgeParam where
  | edge_width
  | edge_color
deriving DecidableEq, Repr

/-- The `parameter` argument of `EdgeObject.add_frame`; `other` covers any
unknown data-source name. -/
inductive LinkParam where
  | flow_rate
  | link_quality
  | custom_data
  | diameter
  | other (s : String)
deriving DecidableEq, Repr

/-- The SCADA collaborator as handed to `EdgeObject.add_frame`: an actual
`ScadaData` object exposing the raw arrays, a pre-shaped raw array (the
`custom_data` usage), or `None`. -/
structure ScadaData where
  flow_data_raw : List (List ℚ)
  link_quality_data_raw : List (List ℚ)
deriving DecidableEq, Repr

/-- The `scada_data` argument: object, raw array, or missing. -/
inductive ScadaArg where
  | scada (s : ScadaData)
  | raw (a : List (List ℚ))
  | missing
deriving DecidableEq, Repr

/-- Instance state of `EdgeObject`.  The `interpolated` dictionary of the source
is a class-level attribute shared by every instance, so it is *not* a field
here; it is modelled by `EdgeCache` below and passed separately, exactly as
Python resolves `self.interpolated` to the single class attribute. -/
structure EdgeObject where
  edgelist : List String
  pos : List (String × ℚ × ℚ)
  edge_color : ColorAttr := .str "k"
  edge_vmin : Option XQ := none
  edge_vmax : Option XQ := none
  width : Option (List (List NpVal)) := none
deriving DecidableEq, Repr

/-- An `EdgeObject` as freshly constructed. -/
def freshEdge (el : List String) : EdgeObject :=
  { edgelist := el, pos := [] }

/-- The class-level `interpolated` dictionary of `EdgeObject` (source line
221): one shared mutable mapping with optional entries for the color and
width tracks. -/
structure EdgeCache where
  edge_color : Option (List (List ℚ)) := none
  width : Option (List (List NpVal)) := none
deriving DecidableEq, Repr

/-- The state of the class-level dictionary at process start: empty. -/
def emptyEdgeCache : EdgeCache := {}

/-- Source lines 290-296: before any validation, `add_frame` initializes the
selected track when it does not exist yet (an empty width list, or an empty
color list with infinite extrema sentinels). -/
def edgeInit (e : EdgeObject) (edge_param : EdgeParam) : EdgeObject :=
  match edge_param with
  | .edge_width =>
    match e.width with
    | none => { e with width := some [] }
    | some _ => e
  | .edge_color =>
    match e.edge_color with
    | .str _ =>
      { e with edge_color := .frames [], edge_vmin := some .inf,
               edge_vmax := some .ninf }
    | .frames _ => e

/-- Source lines 311-316 and 350-355 (identical logic): append the new value
vector to the selected track; for the color track also update the running
extrema, `edge_vmin` from the old `edge_vmin` and `edge_vmax` from the old
`edge_vmax`. -/
def edgeAppendFrame (e : EdgeObject) (edge_param : EdgeParam)
    (sorted_values : List ℚ) : EdgeObject × Option PyErr :=
  match edge_param with
  | .edge_width =>
    match e.width with
    | some ws =>
      ({ e with width := some (ws ++ [sorted_values.map NpVal.fin]) }, none)
    | none => (e, some .attributeError)
  | .edge_color =>
    match e.edge_color with
    | .str _ => (e, some .attributeError)
    | .frames fs =>
      let e2 := { e with edge_color := .frames (fs ++ [sorted_values]) }
      match e2.edge_vmin with
      | none => (e2, some .attributeError)
      | some v0 =>
        match pyMinMulti (sorted_values.map XQ.fin ++ [v0]) with
        | .error er => (e2, some er)
        | .ok m =>
          let e3 := { e2 with edge_vmin := some m }
          match e3.edge_vmax with
          | none => (e3, some .attributeError)
          | some w0 =>
            match pyMaxMulti (sorted_values.map XQ.fin ++ [w0]) with
            | .error er => (e3, some er)
            | .ok M => ({ e3 with edge_vmax := some M }, none)

/-- Source lines 323-355 for the non-diameter parameters: statistic
reduction, optional discretization, then append (`sorted_values` is
`list(stat_values)`, no reordering for edges). -/
def edgePipeline (e1 : EdgeObject) (edge_param : EdgeParam)
    (values : List (List ℚ)) (statistic : Statistic) (pit : Option ℤ)
    (intervals : Option Intervals) : EdgeObject × Option PyErr :=
  match statReduce statistic values pit with
  | .error er => (e1, some er)
  | .ok sv =>
    match discretize sv intervals with
    | .error er => (e1, some er)
    | .ok stat_values => edgeAppendFrame e1 edge_param stat_values

/-- Model of `EdgeObject.add_frame` (source lines 251-355).  The topology collaborator
is the ordered link list with each diameter; the `diameter` parameter appends
the static diameters directly (source lines 304-318), unknown parameters
raise, and the remaining parameters pull their raw array and run the shared
pipeline. -/
def EdgeObject.addFrame (e : EdgeObject) (topology : List (String × ℚ))
    (edge_param : EdgeParam) (scada_data : ScadaArg) (parameter : LinkParam)
    (statistic : Statistic) (pit : Option ℤ) (intervals : Option Intervals) :
    EdgeObject × Option PyErr :=
  let e1 := edgeInit e edge_param
  match parameter with
  | .diameter => edgeAppendFrame e1 edge_param (topology.map Prod.snd)
  | .other _ => (e1, some (.valueError paramMsg))
  | .flow_rate =>
    match scada_data with
    | .scada s => edgePipeline e1 edge_param s.flow_data_raw statistic pit intervals
    | _ => (e1, some .attributeError)
  | .link_quality =>
    match scada_data with
    | .scada s => edgePipeline e1 edge_param s.link_quality_data_raw statistic pit intervals
    | _ => (e1, some .attributeError)
  | .custom_data =>
    match scada_data with
    | .raw a => edgePipeline e1 edge_param a statistic pit intervals
    | _ => (e1, some .typeError)

/-- The attribute mapping `EdgeObject.get_frame` hands to the renderer. -/
structure EdgeFrameAttrs where
  edgelist : List String
  pos : List (String × ℚ × ℚ)
  edge_color : Sum String (List ℚ)
  width : Option (List NpVal)
deriving DecidableEq, Repr

/-- Builds the output mapping of `EdgeObject.get_frame`. -/
def mkEdgeAttrs (e : EdgeObject) (c : Sum String (List ℚ))
    (w : Option (List NpVal)) : EdgeFrameAttrs :=
  { edgelist := e.edgelist, pos := e.pos, edge_color := c, width := w }

/-- Model of `EdgeObject.get_frame` (source lines 357-405): select the color frame
(preferring the shared interpolated cache entry when present), then -- with
the possibly already clamped frame number -- the width frame, and return the
renderer attribute mapping. -/
def EdgeObject.getFrame (e : EdgeObject) (cache : EdgeCache)
    (frame_number : ℤ) : Except PyErr EdgeFrameAttrs :=
  let colorStep : Except PyErr (Sum String (List ℚ) × ℤ) :=
    match e.edge_color with
    | .str c => .ok (.inl c, frame_number)
    | .frames fs =>
      match cache.edge_color with
      | some ifs =>
        let fn := clampFn ifs.length frame_number
        (pyIndex ifs fn).map (fun v => (.inr v, fn))
      | none =>
        let fn := clampFn fs.length frame_number
        (pyIndex fs fn).map (fun v => (.inr v, fn))
  match colorStep with
  | .error er => .error er
  | .ok (c, fn1) =>
    match e.width with
    | none => .ok (mkEdgeAttrs e c none)
    | some ws =>
      match cache.width with
      | some iws =>
        (pyIndex iws (clampFn iws.length fn1)).map
          (fun w => mkEdgeAttrs e c (some w))
      | none =>
        (pyIndex ws (clampFn ws.length fn1)).map
          (fun w => mkEdgeAttrs e c (some w))

/-- Entity columns of a width frame sequence (numpy-scalar values). -/
def columnW (frames : List (List NpVal)) (j : ℕ) : List NpVal :=
  frames.map (fun row => row.getD j (.fin 0))

/-- Width-track counterpart of `interpolateFrames`: the same resampling over
numpy-scalar width frames, with its own spline collaborator. -/
def interpolateFramesW (csW : List NpVal → ℚ → NpVal)
    (frames : List (List NpVal)) (num_inter_frames : ℕ) : List (List NpVal) :=
  let steps := frames.length
  let new_x_axis := npLinspace 0 ((steps : ℚ) - 1) num_inter_frames
  new_x_axis.map
    (fun x => (List.range (numCols frames)).map (fun j => csW (columnW frames j) x))

/-- The width-track spline collaborator used in concrete runs: the
piecewise-linear interpolant through finite samples, nan as soon as a sample
is not finite (a nan sample poisons a scipy spline as well). -/
def plSplineW (ys : List NpVal) (x : ℚ) : NpVal :=
  if ys.all NpVal.isFin then .fin (plSpline (ys.map NpVal.toQ) x) else .nan

/-- Model of `EdgeObject.interpolate` (source lines 407-436): densify the color track
and, when the width attribute exists, the width track, writing the results
into the shared class-level cache; tracks with at most one frame are
skipped. -/
def EdgeObject.interpolate (cubicSpline : List ℚ → ℚ → ℚ)
    (csW : List NpVal → ℚ → NpVal) (e : EdgeObject)
    (cache : EdgeCache) (num_inter_frames : ℕ) : EdgeCache :=
  let c1 :=
    match e.edge_color with
    | .str _ => cache
    | .frames fs =>
      if fs.length ≤ 1 then cache
      else { cache with edge_color := some (interpolateFrames cubicSpline fs num_inter_frames) }
  match e.width with
  | none => c1
  | some ws =>
    if ws.length ≤ 1 then c1
    else { c1 with width := some (interpolateFramesW csW ws num_inter_frames) }

/-- The inner `range_map` closure of `EdgeObject.__rescale` (source lines
486-488) on numpy scalars:
`scale_min_max[0] + (x - min_val) / (max_val - min_val) * scale`. -/
def rangeMap (scale_min_max : ℚ × ℚ) (min_val max_val : NpVal) (x : NpVal) :
    NpVal :=
  NpVal.addQ scale_min_max.1
    (NpVal.mulQ (NpVal.div (NpVal.sub x min_val) (NpVal.sub max_val min_val))
      (scale_min_max.2 - scale_min_max.1))

/-- Model of `EdgeObject.__rescale` (source lines 450-490) on the width
track: affine map of `values` onto the target range, with the source range
taken from the data when not supplied.  The division by `max_val - min_val`
is unguarded in the source; because the operands are numpy scalars, a
degenerate source range does not raise: the division yields nan or a signed
infinity (with a RuntimeWarning) and the call returns normally.  The only
exception comes from `min`/`max` over an empty `values` when no source range
is supplied. -/
def pyRescale (values : List NpVal) (scale_min_max : ℚ × ℚ)
    (values_min_max : Option (NpVal × NpVal)) : Except PyErr (List NpVal) :=
  let mm : Except PyErr (NpVal × NpVal) :=
    match values_min_max with
    | none =>
      match pyMinList values with
      | .error e => .error e
      | .ok m =>
        match pyMaxList values with
        | .error e => .error e
        | .ok M => .ok (m, M)
    | some p => .ok p
  match mm with
  | .error e => .error e
  | .ok (min_val, max_val) =>
    .ok (values.map (rangeMap scale_min_max min_val max_val))

/-- Model of `EdgeObject.rescale_widths` (source lines 223-249): `AttributeError` when
the width attribute does not exist; otherwise compute the global min and max
over all recorded width frames and rescale every frame with that single
source range, replacing `width` only after the whole loop succeeds. -/
def EdgeObject.rescaleWidths (e : EdgeObject) (line_widths : ℚ × ℚ) :
    EdgeObject × Option PyErr :=
  match e.width with
  | none => (e, some .attributeError)
  | some ws =>
    match (exceptMapList pyMinList ws).bind pyMinList with
    | .error er => (e, some er)
    | .ok vmin =>
      match (exceptMapList pyMaxList ws).bind pyMaxList with
      | .error er => (e, some er)
      | .ok vmax =>
        match exceptMapList (fun il => pyRescale il line_widths (some (vmin, vmax))) ws with
        | .error er => (e, some er)
        | .ok tmp => ({ e with width := some tmp }, none)

/-- The recorded color frames of a link series: empty while the color state
is still the shared string. -/
def colorFrames (e : EdgeObject) : List (List ℚ) :=
  match e.edge_color with
  | .str _ => []
  | .frames fs => fs

/-- The recorded width frames of a link series: empty while the width
attribute is absent. -/
def widthFrames (e : EdgeObject) : List (List NpVal) :=
  e.width.getD []

/-! ### Helper lemmas about the embedded primitives -/

theorem pyMinList_err {α : Type} [Min α] {l : List α} {er : PyErr}
    (h : pyMinList l = .error er) : er = .valueError emptySeqMsg := by
  cases l <;> simp_all [pyMinList]

theorem pyMaxList_err {α : Type} [Max α] {l : List α} {er : PyErr}
    (h : pyMaxList l = .error er) : er = .valueError emptySeqMsg := by
  cases l <;> simp_all [pyMaxList]

theorem pyMinList_ok_ne_nil {α : Type} [Min α] {l : List α} {m : α}
    (h : pyMinList l = .ok m) : l ≠ [] := by
  cases l <;> simp_all [pyMinList]

theorem pyMinMulti_err {α : Type} [Min α] {l : List α} {er : PyErr}
    (h : pyMinMulti l = .error er) : er = .typeError := by
  rcases l with _ | ⟨x, _ | ⟨y, xs⟩⟩ <;> simp_all [pyMinMulti]

theorem pyMaxMulti_err {α : Type} [Max α] {l : List α} {er : PyErr}
    (h : pyMaxMulti l = .error er) : er = .typeError := by
  rcases l with _ | ⟨x, _ | ⟨y, xs⟩⟩ <;> simp_all [pyMaxMulti]

theorem foldl_min_le_init (xs : List ℚ) (x : ℚ) : xs.foldl Min.min x ≤ x := by
  induction xs generalizing x with
  | nil => simp
  | cons y ys ih => exact le_trans (ih (Min.min x y)) (min_le_left x y)

theorem foldl_min_le_mem (xs : List ℚ) (x : ℚ) :
    ∀ y ∈ xs, xs.foldl Min.min x ≤ y := by
  induction xs generalizing x with
  | nil => simp
  | cons z zs ih =>
    intro y hy
    rcases List.mem_cons.mp hy with h | h
    · subst h
      exact le_trans (foldl_min_le_init zs (Min.min x y)) (min_le_right x y)
    · exact ih (Min.min x z) y h

theorem pyMinList_le {l : List ℚ} {m : ℚ} (h : pyMinList l = .ok m) :
    ∀ x ∈ l, m ≤ x := by
  rcases l with _ | ⟨x, xs⟩
  · simp
  · simp only [pyMinList, Except.ok.injEq] at h
    intro y hy
    rcases List.mem_cons.mp hy with h1 | h1
    · subst h1
      exact h ▸ foldl_min_le_init xs y
    · exact h ▸ foldl_min_le_mem xs x y h1

theorem exceptMapList_err {α β : Type} {f : α → Except PyErr β} {l : List α}
    {er : PyErr} (h : exceptMapList f l = .error er) :
    ∃ x ∈ l, f x = .error er := by
  induction l with
  | nil => simp [exceptMapList] at h
  | cons x xs ih =>
    rw [exceptMapList] at h
    rcases hf : f x with e | y
    · rw [hf] at h
      exact ⟨x, List.mem_cons_self x xs, by rw [hf, Except.error.inj h]⟩
    · rw [hf] at h
      rcases hr : exceptMapList f xs with e | ys
      · rw [hr] at h
        obtain ⟨z, hz, hfz⟩ := ih (by rw [hr, Except.error.inj h])
        exact ⟨z, List.mem_cons_of_mem x hz, hfz⟩
      · rw [hr] at h
        exact absurd h (by simp)


theorem chainMin_err {α : Type} [Min α] {ws : List (List α)} {er : PyErr}
    (h : (exceptMapList pyMinList ws).bind pyMinList = .error er) :
    er = .valueError emptySeqMsg := by
  rcases hm : exceptMapList pyMinList ws with e | ms <;>
    rw [hm] at h <;> simp only [Except.bind] at h
  · obtain ⟨x, _, hfx⟩ := exceptMapList_err (hm.trans (by rw [Except.error.inj h]))
    exact pyMinList_err hfx
  · exact pyMinList_err h

theorem chainMax_err {α : Type} [Max α] {ws : List (List α)} {er : PyErr}
    (h : (exceptMapList pyMaxList ws).bind pyMaxList = .error er) :
    er = .valueError emptySeqMsg := by
  rcases hm : exceptMapList pyMaxList ws with e | ms <;>
    rw [hm] at h <;> simp only [Except.bind] at h
  · obtain ⟨x, _, hfx⟩ := exceptMapList_err (hm.trans (by rw [Except.error.inj h]))
    exact pyMaxList_err hfx
  · exact pyMaxList_err h

theorem chainMin_head_ne_nil {α : Type} [Min α] {w : List α}
    {ws : List (List α)} {g : α}
    (h : (exceptMapList pyMinList (w :: ws)).bind pyMinList = .ok g) :
    w ≠ [] := by
  intro hw
  subst hw
  simp [exceptMapList, pyMinList, Except.bind] at h

theorem pyRescale_some (values : List NpVal) (smm : ℚ × ℚ)
    (mn mx : NpVal) :
    pyRescale values smm (some (mn, mx))
      = .ok (values.map (rangeMap smm mn mx)) := rfl

theorem rangeMap_fin {smm : ℚ × ℚ} {lo hi a : ℚ} (h : hi - lo ≠ 0) :
    rangeMap smm (.fin lo) (.fin hi) (.fin a)
      = .fin (smm.1 + (a - lo) / (hi - lo) * (smm.2 - smm.1)) := by
  simp [rangeMap, NpVal.sub, NpVal.div, NpVal.mulQ, NpVal.addQ, h]

theorem rangeMap_degenerate (smm : ℚ × ℚ) (g : ℚ) :
    rangeMap smm (.fin g) (.fin g) (.fin g) = .nan := by
  simp [rangeMap, NpVal.sub, NpVal.div, NpVal.mulQ, NpVal.addQ, sub_self]

theorem exceptMapList_pyRescale_some (lw : ℚ × ℚ) (mn mx : NpVal)
    (ws : List (List NpVal)) :
    exceptMapList (fun il => pyRescale il lw (some (mn, mx))) ws
      = .ok (ws.map (fun il => il.map (rangeMap lw mn mx))) := by
  induction ws with
  | nil => simp [exceptMapList]
  | cons w rest ih =>
    simp only [exceptMapList]
    rw [pyRescale_some, ih]
    simp

theorem npLinspace_length (lo hi : ℚ) (n : ℕ) :
    (npLinspace lo hi n).length = n := by
  unfold npLinspace
  rcases n with _ | _ | n
  · simp
  · simp
  · rw [if_neg (by omega), if_neg (by omega), List.length_map,
      List.length_range]

theorem npLinspace_getElem? (lo hi : ℚ) {n i : ℕ} (h2 : 2 ≤ n) (h : i < n) :
    (npLinspace lo hi n)[i]? = some (lo + (hi - lo) * i / (n - 1)) := by
  unfold npLinspace
  rw [if_neg (show ¬ n = 0 by omega), if_neg (show ¬ n = 1 by omega),
    List.getElem?_map, List.getElem?_range h]
  rfl

theorem mem_npLinspace_lo {lo hi : ℚ} {n : ℕ} (h2 : 2 ≤ n) :
    lo ∈ npLinspace lo hi n := by
  unfold npLinspace
  rw [if_neg (show ¬ n = 0 by omega), if_neg (show ¬ n = 1 by omega)]
  refine List.mem_map.mpr ⟨0, List.mem_range.mpr (by omega), by simp⟩

theorem pyIndex_frames_nat (l : List (List ℚ)) (i : ℕ) (h : i < l.length) :
    pyIndex l (i : ℤ) = .ok (l.getD i []) := by
  unfold pyIndex
  rw [if_neg (show ¬ ((i : ℤ) < 0) by omega),
    if_neg (show ¬ ((i : ℤ) < 0) by omega)]
  rw [show ((i : ℤ)).toNat = i from Int.toNat_natCast i,
    List.getElem?_eq_getElem h, List.getD_eq_getElem _ _ h]

theorem pyIndex_frames_neg (l : List (List ℚ)) (fn : ℤ)
    (h1 : -(l.length : ℤ) ≤ fn) (h2 : fn < 0) :
    pyIndex l fn = .ok (l.getD (fn + l.length).toNat []) := by
  unfold pyIndex
  rw [if_pos h2, if_neg (show ¬ (fn + (l.length : ℤ) < 0) by omega)]
  have hlt : (fn + (l.length : ℤ)).toNat < l.length := by omega
  rw [List.getElem?_eq_getElem hlt, List.getD_eq_getElem _ _ hlt]

theorem clampFn_not_gt {len : ℕ} {fn : ℤ} (h : ¬ ((len : ℤ) < fn)) :
    clampFn len fn = fn := by
  unfold clampFn
  exact if_neg h

theorem clampFn_gt {len : ℕ} {fn : ℤ} (h : (len : ℤ) < fn) :
    clampFn len fn = -1 := by
  unfold clampFn
  exact if_pos h

theorem map_range_getD {α : Type} (l : List α) (d : α) :
    (List.range l.length).map (fun j => l.getD j d) = l := by
  induction l with
  | nil => simp
  | cons a t ih =>
    rw [List.length_cons, List.range_succ_eq_map, List.map_cons,
      List.map_map]
    simp only [List.getD_cons_zero, Function.comp_def, List.getD_cons_succ]
    rw [ih]

theorem column_getD {frames : List (List ℚ)} {j i : ℕ}
    (h : i < frames.length) :
    (column frames j).getD i 0 = (frames.getD i []).getD j 0 := by
  unfold column
  have hm : i < (frames.map (fun row => row.getD j 0)).length := by
    simpa using h
  rw [List.getD_eq_getElem _ _ hm, List.getElem_map,
    List.getD_eq_getElem _ _ h]

/-! ### Claim theorems -/

/-- C1: the claim states that after every `add_frame` the running extrema
bracket every value ever appended and are updated monotonically.  This fails
in the code for `JunctionObject`: source line 117 computes the new `vmax`
from `self.vmin` (assigned on line 116) instead of `self.vmax`, so appending
the frames `[5]` and then `[0]` to a one-node series drives `vmax` from `5`
down to `0`, below the previously appended value `5`.  The concrete exemplar
of the claim (frames `[1,2,3]` then `[0,5,1]`) does still end with
`vmin = 0` and `vmax = 5`. -/
theorem C1_junction_vmax_not_monotone :
    (((freshJunction ["a"]).addFrame .time_step [[5]] (some 0) none).1.addFrame
        .time_step [[0]] (some 0) none).2 = none
    ∧ ((freshJunction ["a"]).addFrame .time_step [[5]] (some 0) none).1.vmax
        = some 5
    ∧ (((freshJunction ["a"]).addFrame .time_step [[5]] (some 0) none).1.addFrame
        .time_step [[0]] (some 0) none).1.vmax = some 0
    ∧ (((freshJunction ["a"]).addFrame .time_step [[5]] (some 0) none).1.addFrame
        .time_step [[0]] (some 0) none).1.node_color = .frames [[5], [0]]
    ∧ ¬ ((5 : ℚ) ≤ 0)
    ∧ ((((freshJunction ["a", "b", "c"]).addFrame .time_step [[1, 2, 3]] (some 0)
          none).1.addFrame .time_step [[0, 5, 1]] (some 0) none).1.vmin = some 0
        ∧ (((freshJunction ["a", "b", "c"]).addFrame .time_step [[1, 2, 3]]
          (some 0) none).1.addFrame .time_step [[0, 5, 1]] (some 0)
          none).1.vmax = some 5) := by
  norm_num [JunctionObject.addFrame, statReduce, pyIndex, discretize,
    junctionStore, junctionAppend, pyMinList, pyMaxList, pyMinMulti,
    pyMaxMulti, freshJunction]

/-- C2: the claim states that `get_frame` with any `frame_number` greater
than or equal to the stored frame count returns the same mapping as the last
valid index and never raises.  The code disagrees at `frame_number = count`
exactly: the guard on source lines 146-147 compares with a strict `>`
against the length, so the length itself passes the guard and the subsequent
indexing raises `IndexError`.  On a one-frame series `get_frame 1` raises,
while `get_frame 2` is clamped to the last frame as claimed. -/
theorem C2_get_frame_at_count_raises :
    (((freshJunction ["a"]).addFrame .time_step [[1]] (some 0) none).1.getFrame 1
        = .error .indexError)
    ∧ (((freshJunction ["a"]).addFrame .time_step [[1]] (some 0) none).1.getFrame 2
        = ((freshJunction ["a"]).addFrame .time_step [[1]] (some 0)
            none).1.getFrame 0)
    ∧ (((freshJunction ["a"]).addFrame .time_step [[1]] (some 0) none).1.getFrame 0
        = .ok (mkNodeAttrs ((freshJunction ["a"]).addFrame .time_step [[1]]
            (some 0) none).1 (.inr [1]))) := by
  norm_num [JunctionObject.addFrame, JunctionObject.getFrame, statReduce,
    pyIndex, discretize, junctionStore, junctionAppend, pyMinList, pyMaxList,
    pyMinMulti, pyMaxMulti, freshJunction, clampFn, mkNodeAttrs, Except.map]

/-- C3: the claim states the interpolated caches are independent per object,
so interpolating one link series never alters `get_frame` on another.  This
fails in the code: source line 221 declares `interpolated = {}` as a
class-level mutable dictionary shared by every `EdgeObject` instance.
Concretely, with series `a` holding color frames `[[0],[10]]` and series `b`
holding `[[7]]`, both over the initially empty shared cache: `b.get_frame 0`
returns color `[7]` before `a.interpolate`, and returns `[0]` (the first
interpolated frame of `a`) after it, because `b` reads the cache entry that
`a` wrote into the shared class attribute. -/
theorem C3_interpolated_cache_shared_across_instances :
    emptyEdgeCache.edge_color = none
    ∧ ((((freshEdge ["e2"]).addFrame [] .edge_color (.raw [[7]]) .custom_data
          .time_step (some 0) none).1).getFrame emptyEdgeCache 0
        = .ok (mkEdgeAttrs (((freshEdge ["e2"]).addFrame [] .edge_color
            (.raw [[7]]) .custom_data .time_step (some 0) none).1)
            (.inr [7]) none))
    ∧ ((((freshEdge ["e2"]).addFrame [] .edge_color (.raw [[7]]) .custom_data
          .time_step (some 0) none).1).getFrame
          (EdgeObject.interpolate plSpline plSplineW
            ((((freshEdge ["e1"]).addFrame [] .edge_color (.raw [[0]])
                .custom_data .time_step (some 0) none).1.addFrame []
                .edge_color (.raw [[10]]) .custom_data .time_step (some 0)
                none).1)
            emptyEdgeCache 2) 0
        = .ok (mkEdgeAttrs (((freshEdge ["e2"]).addFrame [] .edge_color
            (.raw [[7]]) .custom_data .time_step (some 0) none).1)
            (.inr [0]) none))
    ∧ (Sum.inr (α := String) [(0 : ℚ)] ≠ Sum.inr [(7 : ℚ)]) := by
  norm_num [EdgeObject.addFrame, EdgeObject.getFrame, EdgeObject.interpolate,
    edgeInit, edgePipeline, edgeAppendFrame, statReduce, pyIndex, discretize,
    pyMinMulti, pyMaxMulti, freshEdge, emptyEdgeCache, clampFn, mkEdgeAttrs,
    interpolateFrames, npLinspace, numCols, column, plSpline, Rat.floor,
    List.range_succ, Min.min, Max.max, XQ.ble, Except.map]

/-- C6: for `statistic = time_step`, a missing `pit` makes `add_frame` fail
with the invalid-argument `ValueError` and leaves the object unchanged, while
any supplied in-range `pit` selects the row at that time index; in
particular `pit = 0` is accepted (the guard `not pit and pit != 0` lets the
falsy-but-valid `0` through) and selects the first row, as shown both at the
reducer level and by a complete successful `add_frame` run. -/
theorem C6_time_step_pit_handling :
    (∀ (o : JunctionObject) (values : List (List ℚ))
        (intervals : Option Intervals),
      o.addFrame .time_step values none intervals
        = (o, some (.valueError pitMsg)))
    ∧ (∀ (values : List (List ℚ)) (p : ℤ), 0 ≤ p → p < values.length →
        statReduce .time_step values (some p) = .ok (values.getD p.toNat []))
    ∧ (∀ (r : List ℚ) (rest : List (List ℚ)),
        statReduce .time_step (r :: rest) (some 0) = .ok r)
    ∧ ((freshJunction ["a"]).addFrame .time_step [[7], [9]] (some 0) none
        = ({ nodelist := ["a"], pos := [], node_size := 10,
             node_color := .frames [[7]], vmin := some 7, vmax := some 7,
             node_color_inter := none, interpolated := false }, none)) := by
  refine ⟨?_, ?_, ?_, ?_⟩
  · intro o values intervals
    simp [JunctionObject.addFrame, statReduce]
  · intro values p h0 hlen
    have hp : p = ((p.toNat : ℕ) : ℤ) := by omega
    rw [show statReduce .time_step values (some p) = pyIndex values p from rfl,
      hp, pyIndex_frames_nat values p.toNat (by omega), Int.toNat_natCast]
  · intro r rest
    simp [statReduce, pyIndex]
  · norm_num [JunctionObject.addFrame, statReduce, pyIndex, discretize,
      junctionStore, junctionAppend, pyMinList, pyMaxList, pyMinMulti,
      pyMaxMulti, freshJunction]

/-- Witness for C6 at the concrete series `[[1],[2],[3]]` with `pit = 1`. -/
theorem C6_time_step_pit_handling_witness :
    (0 : ℤ) ≤ 1 ∧ (1 : ℤ) < (([[1], [2], [3]] : List (List ℚ)).length : ℤ)
    ∧ statReduce .time_step [[1], [2], [3]] (some 1)
        = .ok (([[1], [2], [3]] : List (List ℚ)).getD (1 : ℤ).toNat []) :=
  ⟨by norm_num, by norm_num,
    C6_time_step_pit_handling.2.1 [[1], [2], [3]] 1 (by norm_num)
      (by norm_num)⟩

/-- C10: for a Colored series with `k ≥ 1` stored frames, no interpolated
data for the track, and `-k ≤ frame_number ≤ -1`, `get_frame` succeeds and
returns the frame at position `k + frame_number`, i.e. Python negative
indexing from the end (so `get_frame (-1)` is the last stored frame); this
holds for the node variant and for the link color track alike. -/
theorem C10_negative_frame_number :
    (∀ (o : JunctionObject) (fs : List (List ℚ)) (fn : ℤ),
      o.node_color = .frames fs → o.interpolated = false →
      -(fs.length : ℤ) ≤ fn → fn ≤ -1 →
      ((fs.length : ℤ) + fn).toNat < fs.length
      ∧ o.getFrame fn
          = .ok (mkNodeAttrs o
              (.inr (fs.getD ((fs.length : ℤ) + fn).toNat []))))
    ∧ (∀ (e : EdgeObject) (cache : EdgeCache) (fs : List (List ℚ)) (fn : ℤ),
      e.edge_color = .frames fs → e.width = none → cache.edge_color = none →
      -(fs.length : ℤ) ≤ fn → fn ≤ -1 →
      ((fs.length : ℤ) + fn).toNat < fs.length
      ∧ e.getFrame cache fn
          = .ok (mkEdgeAttrs e
              (.inr (fs.getD ((fs.length : ℤ) + fn).toNat [])) none)) := by
  constructor
  · intro o fs fn hc hi h1 h2
    refine ⟨by omega, ?_⟩
    simp only [JunctionObject.getFrame, hc, hi, Bool.false_eq_true, if_false]
    rw [clampFn_not_gt (by omega), pyIndex_frames_neg fs fn h1 (by omega),
      add_comm fn ((fs.length : ℤ))]
    simp [Except.map]
  · intro e cache fs fn hc hw hcache h1 h2
    refine ⟨by omega, ?_⟩
    simp only [EdgeObject.getFrame, hc, hw, hcache]
    rw [clampFn_not_gt (by omega), pyIndex_frames_neg fs fn h1 (by omega),
      add_comm fn ((fs.length : ℤ))]
    simp [Except.map]

/-- Witness for C10: a two-frame node series read at `-1` and a two-frame
link series read at `-2`. -/
theorem C10_negative_frame_number_witness :
    (({ nodelist := ["a"], pos := [], node_color := .frames [[1], [2]] }
        : JunctionObject).getFrame (-1)
      = .ok (mkNodeAttrs
          { nodelist := ["a"], pos := [], node_color := .frames [[1], [2]] }
          (.inr (([[1], [2]] : List (List ℚ)).getD
            (((([[1], [2]] : List (List ℚ)).length : ℤ) + -1).toNat) []))))
    ∧ (({ edgelist := ["e"], pos := [], edge_color := .frames [[4], [6]] }
        : EdgeObject).getFrame emptyEdgeCache (-2)
      = .ok (mkEdgeAttrs
          { edgelist := ["e"], pos := [], edge_color := .frames [[4], [6]] }
          (.inr (([[4], [6]] : List (List ℚ)).getD
            (((([[4], [6]] : List (List ℚ)).length : ℤ) + -2).toNat) []))
          none)) :=
  ⟨(C10_negative_frame_number.1
      { nodelist := ["a"], pos := [], node_color := .frames [[1], [2]] }
      [[1], [2]] (-1) rfl rfl (by norm_num) (by norm_num)).2,
   (C10_negative_frame_number.2
      { edgelist := ["e"], pos := [], edge_color := .frames [[4], [6]] }
      emptyEdgeCache [[4], [6]] (-2) rfl rfl rfl (by norm_num)
      (by norm_num)).2⟩

/-- C5 counterexample: discretizing `[0,5,10]` with `intervals = 2` does not
yield `[0,0,1]` or `[0,1,1]` as claimed: the digitize-minus-one rule of the
code produces `[0,1,2]`, whose last index `2` lies outside `{0, 1}`
(`np.digitize` places a value equal to the top boundary past the last bin). -/
theorem C5_digitize_counterexample :
    discretize [0, 5, 10] (some (.num 2)) = .ok [0, 1, 2]
    ∧ ([0, 1, 2] : List ℚ) ≠ [0, 0, 1]
    ∧ ([0, 1, 2] : List ℚ) ≠ [0, 1, 1]
    ∧ ¬ ((2 : ℚ) ≤ 2 - 1) := by
  norm_num [discretize, pyMinList, pyMaxList, npLinspace, npDigitize,
    List.countP_cons, List.range_succ, min_def, max_def]

/-- C5 amended: discretizing `[0,5,10]` with `intervals = 2` yields
`[0,1,2]` -- each value sits exactly on a boundary of `[0,5,10]` and falls
into the bin whose lower edge is that boundary, the maximum landing one past
the top bin -- and in general, for integer `intervals = k ≥ 1`, every
produced bin index lies in `{0, ..., k}` (not `{0, ..., k-1}`). -/
theorem C5_digitize_bins_amended :
    discretize [0, 5, 10] (some (.num 2)) = .ok [0, 1, 2]
    ∧ (∀ (vs : List ℚ) (k : ℕ) (m M : ℚ) (out : List ℚ), 1 ≤ k →
        pyMinList vs = .ok m → pyMaxList vs = .ok M →
        discretize vs (some (.num k)) = .ok out →
        ∀ y ∈ out, 0 ≤ y ∧ y ≤ (k : ℚ)) := by
  constructor
  · norm_num [discretize, pyMinList, pyMaxList, npLinspace, npDigitize,
      List.countP_cons, List.range_succ, min_def, max_def]
  · intro vs k m M out hk hm hM hd y hy
    simp only [discretize, hm, hM] at hd
    replace hd := Except.ok.inj hd
    rw [← hd] at hy
    obtain ⟨x, hx, rfl⟩ := List.mem_map.mp hy
    have hbins2 : 2 ≤ k + 1 := by omega
    have h1c : 0 < (npLinspace m M (k + 1)).countP (fun b => decide (b ≤ x)) :=
      List.countP_pos.mpr
        ⟨m, mem_npLinspace_lo hbins2, by simpa using pyMinList_le hm x hx⟩
    have h2c : (npLinspace m M (k + 1)).countP (fun b => decide (b ≤ x))
        ≤ k + 1 :=
      le_trans (List.countP_le_length _) (le_of_eq (npLinspace_length m M (k + 1)))
    unfold npDigitize
    have hc1 : (1 : ℤ) ≤
        ((npLinspace m M (k + 1)).countP (fun b => decide (b ≤ x)) : ℤ) := by
      exact_mod_cast h1c
    have hc2 : ((npLinspace m M (k + 1)).countP (fun b => decide (b ≤ x)) : ℤ)
        ≤ (k : ℤ) + 1 := by
      exact_mod_cast h2c
    constructor
    · have : (0 : ℤ) ≤
          ((npLinspace m M (k + 1)).countP (fun b => decide (b ≤ x)) : ℤ) - 1 := by
        omega
      exact_mod_cast this
    · have : ((npLinspace m M (k + 1)).countP (fun b => decide (b ≤ x)) : ℤ) - 1
          ≤ (k : ℤ) := by omega
      exact_mod_cast this

/-- Witness for C5 at the concrete input `[0,5,10]`, `intervals = 2`. -/
theorem C5_digitize_bins_amended_witness :
    pyMinList ([0, 5, 10] : List ℚ) = .ok 0
    ∧ pyMaxList ([0, 5, 10] : List ℚ) = .ok 10
    ∧ discretize [0, 5, 10] (some (.num 2)) = .ok [0, 1, 2]
    ∧ (∀ y ∈ ([0, 1, 2] : List ℚ), 0 ≤ y ∧ y ≤ ((2 : ℕ) : ℚ)) :=
  ⟨by norm_num [pyMinList, min_def],
   by norm_num [pyMaxList, max_def],
   C5_digitize_bins_amended.1,
   C5_digitize_bins_amended.2 [0, 5, 10] 2 0 10 [0, 1, 2] (by norm_num)
     (by norm_num [pyMinList, min_def]) (by norm_num [pyMaxList, max_def])
     C5_digitize_bins_amended.1⟩

/-- C4 counterexample: the claim states that a call rejected with one of the
validation errors leaves the observable state exactly as before.  This fails
for `EdgeObject`: source lines 290-296 initialize the selected track before
any validation runs, so a fresh link series rejected for an unknown link
parameter comes out with `edge_color` switched from the shared string to an
empty frame list and the extrema set to the infinite sentinels. -/
theorem C4_edge_partial_state_counterexample :
    ((freshEdge ["e1"]).addFrame [] .edge_color .missing (.other "bogus")
        .mean none none).2 = some (.valueError paramMsg)
    ∧ ((freshEdge ["e1"]).addFrame [] .edge_color .missing (.other "bogus")
        .mean none none).1 ≠ freshEdge ["e1"]
    ∧ ((freshEdge ["e1"]).addFrame [] .edge_color .missing (.other "bogus")
        .mean none none).1.edge_color = .frames []
    ∧ (freshEdge ["e1"]).edge_color = .str "k" := by
  refine ⟨rfl, ?_, rfl, rfl⟩
  intro h
  have := congrArg EdgeObject.edge_color h
  simp [EdgeObject.addFrame, edgeInit, freshEdge] at this

/-- C4 amended: a call rejected with one of the four validation errors
(unknown statistic, unknown intervals type, unknown link parameter, missing
`pit`) appends no frame and records no values.  For `JunctionObject` the
state is exactly unchanged.  For `EdgeObject` the rejection happens after
the track initialization of lines 290-296, so the result is exactly
`edgeInit` of the old state and the error: the recorded color and width
frames are unchanged and each extremum is either unchanged or has just been
set to its infinite sentinel. -/
theorem C4_validation_rejection_amended :
    (∀ (o : JunctionObject) (s0 : String) (v : List (List ℚ)) (p : Option ℤ)
        (i : Option Intervals),
      o.addFrame (.other s0) v p i = (o, some (.valueError statMsg)))
    ∧ (∀ (o : JunctionObject) (v : List (List ℚ)) (i : Option Intervals),
      o.addFrame .time_step v none i = (o, some (.valueError pitMsg)))
    ∧ (∀ (o : JunctionObject) (s : Statistic) (v : List (List ℚ))
        (p : Option ℤ), (o.addFrame s v p (some .other)).1 = o)
    ∧ (∀ (e : EdgeObject) (ep : EdgeParam),
      colorFrames (edgeInit e ep) = colorFrames e
      ∧ widthFrames (edgeInit e ep) = widthFrames e
      ∧ (edgeInit e ep).edgelist = e.edgelist
      ∧ ((edgeInit e ep).edge_vmin = e.edge_vmin
          ∨ (edgeInit e ep).edge_vmin = some .inf)
      ∧ ((edgeInit e ep).edge_vmax = e.edge_vmax
          ∨ (edgeInit e ep).edge_vmax = some .ninf))
    ∧ (∀ (e : EdgeObject) (topo : List (String × ℚ)) (ep : EdgeParam)
        (sc : ScadaArg) (s : Statistic) (p : Option ℤ) (i : Option Intervals)
        (s0 : String),
      e.addFrame topo ep sc (.other s0) s p i
        = (edgeInit e ep, some (.valueError paramMsg)))
    ∧ (∀ (e1 : EdgeObject) (ep : EdgeParam) (v : List (List ℚ))
        (p : Option ℤ) (i : Option Intervals) (s0 : String),
      edgePipeline e1 ep v (.other s0) p i = (e1, some (.valueError statMsg)))
    ∧ (∀ (e1 : EdgeObject) (ep : EdgeParam) (v : List (List ℚ))
        (i : Option Intervals),
      edgePipeline e1 ep v .time_step none i = (e1, some (.valueError pitMsg)))
    ∧ (∀ (e1 : EdgeObject) (ep : EdgeParam) (v : List (List ℚ))
        (s : Statistic) (p : Option ℤ),
      (edgePipeline e1 ep v s p (some .other)).1 = e1)
    ∧ (∀ (e : EdgeObject) (topo : List (String × ℚ)) (ep : EdgeParam)
        (a : List (List ℚ)) (s : Statistic) (p : Option ℤ)
        (i : Option Intervals),
      e.addFrame topo ep (.raw a) .custom_data s p i
        = edgePipeline (edgeInit e ep) ep a s p i) := by
  refine ⟨?_, ?_, ?_, ?_, ?_, ?_, ?_, ?_, ?_⟩
  · intro o s0 v p i
    simp [JunctionObject.addFrame, statReduce]
  · intro o v i
    simp [JunctionObject.addFrame, statReduce]
  · intro o s v p
    rcases hs : statReduce s v p with er | sv
    · simp [JunctionObject.addFrame, hs]
    · simp [JunctionObject.addFrame, hs, discretize]
  · intro e ep
    rcases ep with _ | _
    · rcases hw : e.width with _ | ws <;>
        simp [edgeInit, colorFrames, widthFrames, hw]
    · rcases hc : e.edge_color with c | fs <;>
        simp [edgeInit, colorFrames, widthFrames, hc]
  · intro e topo ep sc s p i s0
    simp [EdgeObject.addFrame]
  · intro e1 ep v p i s0
    simp [edgePipeline, statReduce]
  · intro e1 ep v i
    simp [edgePipeline, statReduce]
  · intro e1 ep v s p
    rcases hs : statReduce s v p with er | sv
    · simp [edgePipeline, hs]
    · simp [edgePipeline, hs, discretize]
  · intro e topo ep a s p i
    simp [EdgeObject.addFrame]

/-- C7 counterexample: the claim states a degenerate source range makes the
rescale fail with a DegenerateRange error rather than dividing by zero.  The
code does neither on its width data path: the recorded width values are
numpy scalars (`list(stat_values)`, source line 348), so the unguarded
division by the zero-width range proceeds, `0/0` yields nan with a
RuntimeWarning, and the call returns normally.  On the series with the
single recorded width frame `[[3]]`, `rescale_widths` finishes without any
error and stores the nan width. -/
theorem C7_no_degenerate_range_guard_counterexample :
    (((freshEdge ["e1"]).addFrame [] .edge_width (.raw [[3]]) .custom_data
        .time_step (some 0) none).1.width = some [[NpVal.fin 3]])
    ∧ (((((freshEdge ["e1"]).addFrame [] .edge_width (.raw [[3]]) .custom_data
        .time_step (some 0) none).1).rescaleWidths (1, 2)).2 = none)
    ∧ (((((freshEdge ["e1"]).addFrame [] .edge_width (.raw [[3]]) .custom_data
        .time_step (some 0) none).1).rescaleWidths (1, 2)).1.width
        = some [[NpVal.nan]])
    ∧ ((none : Option PyErr) ≠ some .degenerateRange)
    ∧ pyRescale [NpVal.fin 3] (1, 2) (some (.fin 3, .fin 3))
        = .ok [NpVal.nan] := by
  refine ⟨?_, ?_, ?_, by simp, ?_⟩
  · norm_num [EdgeObject.addFrame, edgeInit, edgePipeline, edgeAppendFrame,
      statReduce, pyIndex, discretize, freshEdge]
  · norm_num [EdgeObject.addFrame, edgeInit, edgePipeline, edgeAppendFrame,
      statReduce, pyIndex, discretize, freshEdge, EdgeObject.rescaleWidths,
      exceptMapList, pyMinList, pyMaxList, pyRescale, Except.bind, rangeMap,
      NpVal.sub, NpVal.div, NpVal.mulQ, NpVal.addQ]
  · norm_num [EdgeObject.addFrame, edgeInit, edgePipeline, edgeAppendFrame,
      statReduce, pyIndex, discretize, freshEdge, EdgeObject.rescaleWidths,
      exceptMapList, pyMinList, pyMaxList, pyRescale, Except.bind, rangeMap,
      NpVal.sub, NpVal.div, NpVal.mulQ, NpVal.addQ]
  · norm_num [pyRescale, rangeMap, NpVal.sub, NpVal.div, NpVal.mulQ,
      NpVal.addQ]

/-- C7 amended: a rescale whose source range is degenerate does not fail at
all on the width data path: the width values are numpy scalars, so the
unguarded division proceeds, every value equal to the degenerate bound maps
to nan (`0/0`), and both the direct rescale and `rescale_widths` over a
collapsed global range return normally with nan results; the DegenerateRange
guard recommended by the spec is absent from the code.  (Width frames from
the `diameter` branch hold plain Python floats, for which the same division
would instead raise `ZeroDivisionError`.) -/
theorem C7_degenerate_range_no_failure_amended :
    (∀ (vs : List ℚ) (smm : ℚ × ℚ) (g : ℚ), (∀ x ∈ vs, x = g) →
      pyRescale (vs.map NpVal.fin) smm (some (.fin g, .fin g))
        = .ok (vs.map (fun _ => NpVal.nan)))
    ∧ (∀ (e : EdgeObject) (ws : List (List NpVal)) (g : ℚ) (lw : ℚ × ℚ),
      e.width = some ws →
      (exceptMapList pyMinList ws).bind pyMinList = .ok (.fin g) →
      (exceptMapList pyMaxList ws).bind pyMaxList = .ok (.fin g) →
      (∀ il ∈ ws, ∀ x ∈ il, x = NpVal.fin g) →
      e.rescaleWidths lw
        = ({ e with
              width := some (ws.map (fun il => il.map (fun _ => NpVal.nan))) },
           none)) := by
  constructor
  · intro vs smm g hconst
    rw [pyRescale_some, List.map_map]
    congr 1
    refine List.map_congr_left ?_
    intro x hx
    simp only [Function.comp_def]
    rw [hconst x hx, rangeMap_degenerate]
  · intro e ws g lw hw hmin hmax hconst
    simp only [EdgeObject.rescaleWidths, hw, hmin, hmax,
      exceptMapList_pyRescale_some]
    have hws : ws.map (fun il => il.map (rangeMap lw (.fin g) (.fin g)))
        = ws.map (fun il => il.map (fun _ => NpVal.nan)) := by
      refine List.map_congr_left ?_
      intro il hil
      refine List.map_congr_left ?_
      intro x hx
      rw [hconst il hil x hx, rangeMap_degenerate]
    rw [hws]

/-- Witness for C7: the direct degenerate rescale of `[3]` onto `(1,2)` and
the one-frame width series `[[3]]`, both ending in nan without an error. -/
theorem C7_degenerate_range_no_failure_amended_witness :
    ((∀ x ∈ ([3] : List ℚ), x = 3)
      ∧ pyRescale (([3] : List ℚ).map NpVal.fin) (1, 2)
          (some (.fin 3, .fin 3)) = .ok (([3] : List ℚ).map (fun _ => NpVal.nan)))
    ∧ (({ edgelist := ["e1"], pos := [], width := some [[NpVal.fin 3]] }
          : EdgeObject).width = some [[NpVal.fin 3]]
      ∧ (exceptMapList pyMinList [[NpVal.fin 3]]).bind pyMinList
          = .ok (.fin 3)
      ∧ (exceptMapList pyMaxList [[NpVal.fin 3]]).bind pyMaxList
          = .ok (.fin 3)
      ∧ (∀ il ∈ ([[NpVal.fin 3]] : List (List NpVal)), ∀ x ∈ il,
          x = NpVal.fin 3)
      ∧ EdgeObject.rescaleWidths
          { edgelist := ["e1"], pos := [], width := some [[NpVal.fin 3]] }
          (1, 2)
          = ({ edgelist := ["e1"], pos := [],
               width := some (([[NpVal.fin 3]] : List (List NpVal)).map
                 (fun il => il.map (fun _ => NpVal.nan))) },
             none)) :=
  ⟨⟨by norm_num,
    C7_degenerate_range_no_failure_amended.1 [3] (1, 2) 3 (by norm_num)⟩,
   ⟨rfl,
    by norm_num [exceptMapList, pyMinList, Except.bind],
    by norm_num [exceptMapList, pyMaxList, Except.bind],
    by norm_num,
    C7_degenerate_range_no_failure_amended.2
      { edgelist := ["e1"], pos := [], width := some [[NpVal.fin 3]] }
      [[NpVal.fin 3]] 3 (1, 2) rfl
      (by norm_num [exceptMapList, pyMinList, Except.bind])
      (by norm_num [exceptMapList, pyMaxList, Except.bind])
      (by norm_num)⟩⟩

/-- C9 counterexample: the claim states `rescale_widths` fails with the
PreconditionViolation exactly when no width frame has been recorded, and
succeeds with one global width-to-range mapping whenever a frame exists.
The first part fails in the code: a width track initialized by a rejected
`add_frame` (no width frame ever recorded) passes the `hasattr` guard and
fails with a `ValueError` from `min` over the empty frame list instead of
the PreconditionViolation `AttributeError`.  And on a series whose single
recorded frame `[[3]]` collapses the global range, the call returns
normally but stores nan, not a real width-to-range mapping. -/
theorem C9_rescale_widths_counterexample :
    (((freshEdge ["e1"]).addFrame [] .edge_width .missing (.other "p")
        .mean none none).1.width = some [])
    ∧ ((((freshEdge ["e1"]).addFrame [] .edge_width .missing (.other "p")
        .mean none none).1).rescaleWidths (1, 2)).2
        = some (.valueError emptySeqMsg)
    ∧ PyErr.valueError emptySeqMsg ≠ .attributeError
    ∧ ((EdgeObject.rescaleWidths
        { edgelist := ["e1"], pos := [], width := some [[NpVal.fin 3]] }
        (1, 2)).2 = none)
    ∧ ((EdgeObject.rescaleWidths
        { edgelist := ["e1"], pos := [], width := some [[NpVal.fin 3]] }
        (1, 2)).1.width = some [[NpVal.nan]]) := by
  refine ⟨?_, ?_, by simp, ?_, ?_⟩
  · norm_num [EdgeObject.addFrame, edgeInit, freshEdge]
  · norm_num [EdgeObject.addFrame, edgeInit, freshEdge,
      EdgeObject.rescaleWidths, exceptMapList, pyMinList, pyMaxList,
      Except.bind]
  · norm_num [EdgeObject.rescaleWidths, exceptMapList, pyMinList, pyMaxList,
      pyRescale, Except.bind, rangeMap, NpVal.sub, NpVal.div, NpVal.mulQ,
      NpVal.addQ]
  · norm_num [EdgeObject.rescaleWidths, exceptMapList, pyMinList, pyMaxList,
      pyRescale, Except.bind, rangeMap, NpVal.sub, NpVal.div, NpVal.mulQ,
      NpVal.addQ]

/-- C9 amended: `rescale_widths` fails with the `AttributeError`
(PreconditionViolation) exactly when the width attribute is absent, i.e. no
`add_frame` with the width track was ever started (a track initialized by a
rejected call instead fails with `ValueError`); when the global min/max
chain over the recorded width frames succeeds, the call returns normally and
maps every frame through the single global range-map, which on finite values
and a non-degenerate global range is the claimed affine width-to-range
mapping (and nan when the range is degenerate). -/
theorem C9_rescale_widths_amended :
    (∀ (e : EdgeObject) (lw : ℚ × ℚ),
      (e.rescaleWidths lw).2 = some .attributeError ↔ e.width = none)
    ∧ (∀ (e : EdgeObject) (ws : List (List NpVal)) (mn mx : NpVal)
        (lw : ℚ × ℚ),
      e.width = some ws →
      (exceptMapList pyMinList ws).bind pyMinList = .ok mn →
      (exceptMapList pyMaxList ws).bind pyMaxList = .ok mx →
      e.rescaleWidths lw
        = ({ e with width := some (ws.map (fun il => il.map (rangeMap lw mn mx))) },
           none))
    ∧ (∀ (lw : ℚ × ℚ) (a lo hi : ℚ), hi - lo ≠ 0 →
      rangeMap lw (.fin lo) (.fin hi) (.fin a)
        = .fin (lw.1 + (a - lo) / (hi - lo) * (lw.2 - lw.1))) := by
  refine ⟨?_, ?_, ?_⟩
  · intro e lw
    constructor
    · intro h
      rcases hw : e.width with _ | ws
      · rfl
      · exfalso
        simp only [EdgeObject.rescaleWidths, hw] at h
        rcases hm : (exceptMapList pyMinList ws).bind pyMinList with er | mn
        · rw [chainMin_err hm] at hm
          simp [hm] at h
        · simp only [hm] at h
          rcases hM : (exceptMapList pyMaxList ws).bind pyMaxList with er | mx
          · rw [chainMax_err hM] at hM
            simp [hM] at h
          · simp only [hM, exceptMapList_pyRescale_some] at h
            exact Option.noConfusion h
    · intro h
      simp [EdgeObject.rescaleWidths, h]
  · intro e ws mn mx lw hw hmin hmax
    simp only [EdgeObject.rescaleWidths, hw, hmin, hmax,
      exceptMapList_pyRescale_some]
  · intro lw a lo hi h
    exact rangeMap_fin h

/-- Witness for C9: the precondition violation on a fresh link series, a
successful global rescale of the width frames `[[1],[3]]` onto `(1,2)`, and
the affine formula at one finite point of that range. -/
theorem C9_rescale_widths_amended_witness :
    (((freshEdge ["x"]).rescaleWidths (1, 2)).2 = some .attributeError)
    ∧ (EdgeObject.rescaleWidths
        { edgelist := ["e1"], pos := [],
          width := some [[NpVal.fin 1], [NpVal.fin 3]] } (1, 2)
        = ({ edgelist := ["e1"], pos := [],
             width := some [[NpVal.fin 1], [NpVal.fin 2]] }, none))
    ∧ rangeMap (1, 2) (.fin 1) (.fin 3) (.fin 3) = .fin 2 := by
  refine ⟨?_, ?_, ?_⟩
  · exact (C9_rescale_widths_amended.1 (freshEdge ["x"]) (1, 2)).mpr rfl
  · have h := C9_rescale_widths_amended.2.1
      { edgelist := ["e1"], pos := [],
        width := some [[NpVal.fin 1], [NpVal.fin 3]] }
      [[NpVal.fin 1], [NpVal.fin 3]] (.fin 1) (.fin 3) (1, 2) rfl
      (by norm_num [exceptMapList, pyMinList, Except.bind, Min.min, NpVal.lt])
      (by norm_num [exceptMapList, pyMaxList, Except.bind, Max.max, NpVal.lt])
    rw [h]
    norm_num [rangeMap, NpVal.sub, NpVal.div, NpVal.mulQ, NpVal.addQ]
  · have h := C9_rescale_widths_amended.2.2 (1, 2) 3 1 3 (by norm_num)
    rw [h]
    norm_num

/-- C8: `interpolate` over any spline evaluator that reproduces its sample
points (as every cubic-spline interpolant does) resamples at exactly
`target_frame_count` evenly spaced points over `[0, steps-1]`, and because
the resampling endpoints coincide with the first and last sample points, the
first and last output frames equal the first and last input frames exactly;
on the 2-frame, 1-entity series `[[0],[10]]` with `target_frame_count = 3`
(where the cubic spline degenerates to the straight line) the output is
`[[0],[5],[10]]`. -/
theorem C8_interpolate_endpoints :
    (∀ (cs : List ℚ → ℚ → ℚ) (frames : List (List ℚ)) (n : ℕ),
      2 ≤ frames.length → 2 ≤ n →
      (∀ row ∈ frames, row.length = numCols frames) →
      (∀ j, j < numCols frames → ∀ i : ℕ, i < frames.length →
          cs (column frames j) (i : ℚ) = (column frames j).getD i 0) →
      (interpolateFrames cs frames n).length = n
      ∧ (interpolateFrames cs frames n).getD 0 [] = frames.getD 0 []
      ∧ (interpolateFrames cs frames n).getD (n - 1) []
          = frames.getD (frames.length - 1) [])
    ∧ interpolateFrames plSpline [[0], [10]] 3 = [[0], [5], [10]] := by
  constructor
  · intro cs frames n h2f h2n hrect hcs
    have hlen : (interpolateFrames cs frames n).length = n := by
      simp only [interpolateFrames]
      rw [List.length_map, npLinspace_length]
    refine ⟨hlen, ?_, ?_⟩
    · have hx0 : (npLinspace 0 ((frames.length : ℚ) - 1) n)[0]?
          = some (0 + (((frames.length : ℚ) - 1) - 0) * ((0 : ℕ) : ℚ)
              / ((n : ℚ) - 1)) :=
        npLinspace_getElem? 0 ((frames.length : ℚ) - 1) h2n (by omega)
      have hx0v : (0 : ℚ) + (((frames.length : ℚ) - 1) - 0) * ((0 : ℕ) : ℚ)
          / ((n : ℚ) - 1) = 0 := by
        norm_num
      rw [hx0v] at hx0
      simp only [interpolateFrames]
      rw [List.getD_eq_getElem?_getD, List.getElem?_map, hx0]
      simp only [Option.map_some', Option.getD_some]
      have hrow0 : frames.getD 0 [] ∈ frames := by
        rw [List.getD_eq_getElem _ _ (by omega : 0 < frames.length)]
        exact List.getElem_mem _
      have hmap : (List.range (numCols frames)).map
            (fun j => cs (column frames j) 0)
          = (List.range (numCols frames)).map
            (fun j => (frames.getD 0 []).getD j 0) := by
        refine List.map_congr_left ?_
        intro j hj
        have hj2 := List.mem_range.mp hj
        have := hcs j hj2 0 (by omega)
        rw [Nat.cast_zero] at this
        rw [this, column_getD (by omega : 0 < frames.length)]
      rw [hmap, ← hrect (frames.getD 0 []) hrow0, map_range_getD]
    · have hne : ((n : ℚ) - 1) ≠ 0 := by
        have : (2 : ℚ) ≤ (n : ℚ) := by exact_mod_cast h2n
        intro hcon
        have : (n : ℚ) = 1 := by linarith
        linarith
      have hxl : (npLinspace 0 ((frames.length : ℚ) - 1) n)[n - 1]?
          = some (0 + (((frames.length : ℚ) - 1) - 0) * ((n - 1 : ℕ) : ℚ)
              / ((n : ℚ) - 1)) :=
        npLinspace_getElem? 0 ((frames.length : ℚ) - 1) h2n (by omega)
      have hcast : ((n - 1 : ℕ) : ℚ) = (n : ℚ) - 1 := by
        have : 1 ≤ n := by omega
        push_cast [Nat.cast_sub this]
        ring
      have hxlv : (0 : ℚ) + (((frames.length : ℚ) - 1) - 0) * ((n - 1 : ℕ) : ℚ)
          / ((n : ℚ) - 1) = (frames.length : ℚ) - 1 := by
        rw [hcast]
        field_simp
      rw [hxlv] at hxl
      simp only [interpolateFrames]
      rw [List.getD_eq_getElem?_getD, List.getElem?_map, hxl]
      simp only [Option.map_some', Option.getD_some]
      have hlast : frames.getD (frames.length - 1) [] ∈ frames := by
        rw [List.getD_eq_getElem _ _ (by omega : frames.length - 1 < frames.length)]
        exact List.getElem_mem _
      have hcastf : ((frames.length - 1 : ℕ) : ℚ) = (frames.length : ℚ) - 1 := by
        have : 1 ≤ frames.length := by omega
        push_cast [Nat.cast_sub this]
        ring
      have hmap : (List.range (numCols frames)).map
            (fun j => cs (column frames j) ((frames.length : ℚ) - 1))
          = (List.range (numCols frames)).map
            (fun j => (frames.getD (frames.length - 1) []).getD j 0) := by
        refine List.map_congr_left ?_
        intro j hj
        have hj2 := List.mem_range.mp hj
        have := hcs j hj2 (frames.length - 1) (by omega)
        rw [hcastf] at this
        rw [this, column_getD (by omega : frames.length - 1 < frames.length)]
      rw [hmap, ← hrect (frames.getD (frames.length - 1) []) hlast,
        map_range_getD]
  · norm_num [interpolateFrames, npLinspace, numCols, column, plSpline,
      Rat.floor, List.range_succ]

/-- Witness for C8 at the concrete series `[[0],[10]]` with
`target_frame_count = 3` and the degenerate-to-linear spline. -/
theorem C8_interpolate_endpoints_witness :
    (2 ≤ ([[(0 : ℚ)], [10]] : List (List ℚ)).length ∧ 2 ≤ 3
      ∧ (∀ row ∈ ([[(0 : ℚ)], [10]] : List (List ℚ)),
          row.length = numCols [[(0 : ℚ)], [10]])
      ∧ (∀ j, j < numCols [[(0 : ℚ)], [10]] →
          ∀ i : ℕ, i < ([[(0 : ℚ)], [10]] : List (List ℚ)).length →
          plSpline (column [[(0 : ℚ)], [10]] j) (i : ℚ)
            = (column [[(0 : ℚ)], [10]] j).getD i 0))
    ∧ ((interpolateFrames plSpline [[0], [10]] 3).length = 3
      ∧ (interpolateFrames plSpline [[0], [10]] 3).getD 0 []
          = ([[(0 : ℚ)], [10]] : List (List ℚ)).getD 0 []
      ∧ (interpolateFrames plSpline [[0], [10]] 3).getD (3 - 1) []
          = ([[(0 : ℚ)], [10]] : List (List ℚ)).getD
              (([[(0 : ℚ)], [10]] : List (List ℚ)).length - 1) []) := by
  have hrect : ∀ row ∈ ([[(0 : ℚ)], [10]] : List (List ℚ)),
      row.length = numCols [[(0 : ℚ)], [10]] := by
    intro row hr
    rcases List.mem_cons.mp hr with h | h
    · simp [h, numCols]
    · rcases List.mem_cons.mp h with h2 | h2
      · simp [h2, numCols]
      · simp at h2
  have hcs : ∀ j, j < numCols [[(0 : ℚ)], [10]] →
      ∀ i : ℕ, i < ([[(0 : ℚ)], [10]] : List (List ℚ)).length →
      plSpline (column [[(0 : ℚ)], [10]] j) (i : ℚ)
        = (column [[(0 : ℚ)], [10]] j).getD i 0 := by
    intro j hj i hi
    have hj0 : j = 0 := by
      simpa [numCols, Nat.lt_one_iff] using hj
    subst hj0
    have hi2 : i < 2 := by simpa using hi
    interval_cases i <;>
      norm_num [plSpline, column, Rat.floor]
  exact ⟨⟨by norm_num, by norm_num, hrect, hcs⟩,
    C8_interpolate_endpoints.1 plSpline [[0], [10]] 3 (by norm_num)
      (by norm_num) hrect hcs⟩
